import Mathlib

/-!
Verification development for the micoreca filtering/curation pipeline
(`bin/filter_rsec.py`, `bin/filter_rsec_2.py`, `bin/extract_workflowhub.py`,
`bin/bioconda_manager.py`, `bin/utils.py`).

The Python sources are shallowly embedded: mutable objects become explicit
state passing, Python dicts become association lists, and code that can raise
an uncaught exception returns `Option` (`none` = the exception propagates).
Text is modelled over ASCII: `str.lower`/`str.upper` are embedded as ASCII
case maps, and the regular expressions the scripts build from configuration
entries are embedded for literal (metacharacter-free) patterns, which is the
shape the strict acronyms and plain keywords take; the three boundary styles
that occur in the source are embedded separately:
  * `strictWordMatch` — `re.compile(r"\b" + re.escape(term) + r"\b")`,
    case-sensitive (`filter_rsec.py` / `filter_rsec_2.py` strict acronyms);
  * `boundMatch` — `utils.format_regex`, i.e.
    `(?<![A-Za-z])pat(?![A-Za-z])`, with or without `re.IGNORECASE`
    (workflow / bioconda side);
  * `ciFind` — a bare pattern compiled with `re.IGNORECASE` and searched with
    `pattern.search`, returning `match.group(0)` (the fragment patterns).
-/

/-- Python `c.isupper()` for an ASCII character: `'A' ≤ c ≤ 'Z'`. -/
def isUpperAlpha (c : Char) : Bool := 65 ≤ c.toNat && c.toNat ≤ 90

/-- Lower-case ASCII letter test: `'a' ≤ c ≤ 'z'`. -/
def isLowerAlpha (c : Char) : Bool := 97 ≤ c.toNat && c.toNat ≤ 122

/-- ASCII letter, the class `[A-Za-z]` used by `utils.format_regex`. -/
def asciiAlpha (c : Char) : Bool := isUpperAlpha c || isLowerAlpha c

/-- Word character for Python's `\b`: `[A-Za-z0-9_]`. -/
def wordChar (c : Char) : Bool :=
  asciiAlpha c || (48 ≤ c.toNat && c.toNat ≤ 57) || c = '_'

/-- ASCII lower-casing of one character (embeds `str.lower`). -/
def lowerChar (c : Char) : Char :=
  if isUpperAlpha c then Char.ofNat (c.toNat + 32) else c

/-- ASCII upper-casing of one character (embeds `str.upper`). -/
def upperChar (c : Char) : Char :=
  if isLowerAlpha c then Char.ofNat (c.toNat - 32) else c

/-- Embeds Python `s.lower()` (ASCII fragment). -/
def pyLower (s : String) : String := ⟨s.data.map lowerChar⟩

/-- Embeds Python `s.upper()` (ASCII fragment). -/
def pyUpper (s : String) : String := ⟨s.data.map upperChar⟩

/-- Whitespace for Python `str.strip()`. -/
def pyIsSpace (c : Char) : Bool :=
  c = ' ' || c = '\t' || c = '\n' || c = '\x0d' || c = '\x0b' || c = '\x0c'

/-- Embeds Python `s.strip()`. -/
def pyStrip (s : String) : String :=
  ⟨((s.data.dropWhile pyIsSpace).reverse.dropWhile pyIsSpace).reverse⟩

/-- Regex metacharacter test from `load_keywords_from_yaml`:
`any(c in kw for c in [".", "*", "+", "?"])`. -/
def hasMetachar (s : String) : Bool :=
  s.data.any (fun c => c = '.' || c = '*' || c = '+' || c = '?')

/-- Character comparison, case-folded when `ci` is true (`re.IGNORECASE`). -/
def charEqCI (ci : Bool) (a b : Char) : Bool :=
  if ci then lowerChar a = lowerChar b else a = b

/-- Does `pat` match at the head of `text` (literal pattern, flag `ci`)? -/
def matchesAt (ci : Bool) : List Char → List Char → Bool
  | [], _ => true
  | _ :: _, [] => false
  | p :: ps, c :: cs => charEqCI ci p c && matchesAt ci ps cs

/-- Full (length-equal) case-folded equality of two character lists. -/
def eqFold (ci : Bool) : List Char → List Char → Bool
  | [], [] => true
  | a :: as, b :: bs => charEqCI ci a b && eqFold ci as bs
  | _, _ => false

/-- The lookbehind `(?<![A-Za-z])` of `utils.format_regex`: the character
before the match position, if any, is not an ASCII letter. -/
def prevOk : Option Char → Bool
  | none => true
  | some c => !asciiAlpha c

/-- The lookahead `(?![A-Za-z])` of `utils.format_regex`: the character at
the position after the match, if any, is not an ASCII letter. -/
def nextOk : List Char → Bool
  | [] => true
  | c :: _ => !asciiAlpha c

/-- Search loop for `re.search` of `(?<![A-Za-z])pat(?![A-Za-z])` with a
literal `pat`; `prev` is the character just before the current position. -/
def boundSearchAux (ci : Bool) (pat : List Char) (prev : Option Char) :
    List Char → Bool
  | [] =>
    prevOk prev && matchesAt ci pat [] && nextOk (([] : List Char).drop pat.length)
  | c :: cs =>
    (prevOk prev && matchesAt ci pat (c :: cs) &&
      nextOk ((c :: cs).drop pat.length)) ||
    boundSearchAux ci pat (some c) cs

/-- Embeds `re.search(utils.format_regex(pat), text, flags)` for a literal
pattern `pat`; `ci` is true when `re.IGNORECASE` was passed. -/
def boundMatch (ci : Bool) (pat text : String) : Bool :=
  boundSearchAux ci pat.data none text.data

/-- Word-ness of an `Option Char` (out-of-string counts as non-word). -/
def optWord : Option Char → Bool
  | none => false
  | some c => wordChar c

/-- Word-ness of the first character of a list. -/
def headWord : List Char → Bool
  | [] => false
  | c :: _ => wordChar c

/-- Word-ness of the last character of `pat`, falling back to `prev` when
`pat` is empty. -/
def lastWord (pat : List Char) (prev : Option Char) : Bool :=
  match pat.getLast? with
  | some c => wordChar c
  | none => optWord prev

/-- Search loop for `re.search` of `r"\b" + re.escape(pat) + r"\b"`
(case-sensitive): `\b` holds where word-ness changes between neighbours. -/
def strictAux (pat : List Char) (prev : Option Char) : List Char → Bool
  | [] =>
    (optWord prev ^^ headWord []) && matchesAt false pat [] &&
      (lastWord pat prev ^^ headWord (([] : List Char).drop pat.length))
  | c :: cs =>
    ((optWord prev ^^ headWord (c :: cs)) && matchesAt false pat (c :: cs) &&
      (lastWord pat prev ^^ headWord ((c :: cs).drop pat.length))) ||
    strictAux pat (some c) cs

/-- Embeds the pre-compiled strict-acronym pattern search
`re.compile(r"\b" + re.escape(term) + r"\b").search(content)`. -/
def strictWordMatch (term content : String) : Bool :=
  strictAux term.data none content.data

/-- Leftmost occurrence of the literal pattern `pat` in `text`, compared
case-insensitively, returning the matched span of `text`. -/
def ciFindAux (pat : List Char) : List Char → Option (List Char)
  | [] => if matchesAt true pat [] then some ([].take pat.length) else none
  | c :: cs =>
    if matchesAt true pat (c :: cs) then some ((c :: cs).take pat.length)
    else ciFindAux pat cs

/-- Embeds `pattern.search(text)` followed by `match.group(0)` for a literal
pattern compiled with `re.IGNORECASE`. -/
def ciFind (pat text : String) : Option String :=
  (ciFindAux pat.data text.data).map (⟨·⟩)

/-! Keyword rule-set compilation, from `load_keywords_from_yaml` in
`bin/filter_rsec.py` (the identical function appears in
`bin/filter_rsec_2.py`).  YAML list entries may be non-strings: entries are
embedded as `Option String` (`none` = a non-`str` entry, filtered out by the
`isinstance(k, str)` guards).  Compiled regexes are carried as their pattern
strings; the literal matchers above give them their semantics.  The Python
`set()` de-duplication is embedded as `List.dedup` (order differs, membership
agrees); the skip-on-`re.error` branch has no counterpart because every
embedded pattern is a valid regex. -/

/-- Compiled rule set: the dictionary returned by `load_keywords_from_yaml`
(`operations`, `topics`, `stricts`, `compiled_fragments`; the
`compiled_stricts` entry is determined by `stricts` and is embedded by
applying `strictWordMatch` to the `stricts` list). -/
structure RsecKw where
  operations : List String
  topics : List String
  stricts : List String
  fragments : List String
deriving DecidableEq, Repr

/-- Embeds `load_keywords_from_yaml`: fragment patterns are the non-blank
string `keywords` entries; strict terms are the non-blank string `acronyms`
entries plus the metacharacter-free fully-upper-case `keywords` entries,
stripped, upper-cased and de-duplicated. -/
def loadKeywordsFromYaml (operations topics : List String)
    (keywordsRaw acronymsRaw : List (Option String)) : RsecKw :=
  let fragments := (keywordsRaw.filterMap id).filter (fun s => pyStrip s ≠ "")
  let acr := (acronymsRaw.filterMap id).filterMap
    (fun k => if pyStrip k ≠ "" then some (pyStrip k) else none)
  let dual := (keywordsRaw.filterMap id).filterMap
    (fun kw =>
      if pyStrip kw ≠ "" ∧ hasMetachar kw = false ∧ pyUpper kw = kw then
        some (pyStrip kw)
      else none)
  let base := acr ++ dual
  let stricts :=
    ((base.filter (fun k => pyStrip k ≠ "")).map
      (fun k => pyUpper (pyStrip k))).dedup
  { operations := operations, topics := topics,
    stricts := stricts, fragments := fragments }

/-! Tool model, from the `Tool` class of `bin/filter_rsec.py`.  Only the
fields the three checks read are embedded; the reporting-only entries of
`validation_data` (`tool_id`, `has_*_infos`, `*_description_full`,
`biotools_id`, `EDAM_*_full`) never influence a check or a counter and are
omitted.  A missing or non-list `"topic"`/`"function"`/`"operation"` key
makes the corresponding Python loop body never run and is embedded as the
empty list; a dict entry without a `"term"` key is an `Option.none` element. -/

/-- Parsed `*biotools.json` content as `check_criteria_1` reads it. -/
structure BiotoolsData where
  topics : List (Option String)
  functions : List (List (Option String))
deriving DecidableEq, Repr

/-- The `keywords` value of a `*.biocontainers.yaml` file:
absent, a YAML list (non-`None` entries stringified), or a single string. -/
inductive KeywordsField where
  | absent : KeywordsField
  | ofList (xs : List (Option String)) : KeywordsField
  | ofStr (s : String) : KeywordsField
deriving DecidableEq, Repr

/-- Python truthiness of the `keywords` value (`if not file_keywords`). -/
def KeywordsField.isTruthy : KeywordsField → Bool
  | .absent => false
  | .ofList xs => !xs.isEmpty
  | .ofStr s => s ≠ ""

/-- Parsed `*.biocontainers.yaml` content as `check_criteria_2` reads it. -/
structure BiocontainersData where
  keywords : KeywordsField
deriving DecidableEq, Repr

/-- Loaded metadata of one tool folder (the parts of
`Tool.metadata`/`Tool.descriptions` the checks read; a description absent
from the `descriptions` dict reads back as `""` via `.get(..., "")`). -/
structure ToolMeta where
  biotools : Option BiotoolsData
  biocontainers : Option BiocontainersData
  descBiotools : String
  descBiocontainers : String
  descGalaxy : String
deriving DecidableEq, Repr

/-- Outcome of `check_criteria_1`: which EDAM term matched and under which
`validation_data` key it is recorded. -/
inductive Reason1 where
  | topicHit (t : String) : Reason1
  | operationHit (t : String) : Reason1
deriving DecidableEq, Repr

/-- Embeds `Tool.check_criteria_1` of `filter_rsec.py`: first matching EDAM
topic, else first matching EDAM operation (in declaration order). -/
def checkCriteria1 (kw : RsecKw) (meta : ToolMeta) : Option Reason1 :=
  match meta.biotools with
  | none => none
  | some d =>
    match d.topics.findSome?
        (fun t? => t?.bind (fun t => if kw.topics.contains t then some t else none)) with
    | some t => some (.topicHit t)
    | none =>
      match d.functions.findSome?
          (fun ops => ops.findSome?
            (fun o? => o?.bind
              (fun o => if kw.operations.contains o then some o else none))) with
      | some o => some (.operationHit o)
      | none => none

/-- Candidate keyword list of `check_criteria_2`: list entries are
stringified and stripped; a string value is split on `,` after replacing
`;` by `,`, stripped, blanks dropped. -/
def keywordCandidates : KeywordsField → List String
  | .absent => []
  | .ofList xs => (xs.filterMap id).map pyStrip
  | .ofStr s =>
    (((⟨s.data.map (fun c => if c = ';' then ',' else c)⟩ : String).splitOn ",").map
      pyStrip).filter (· ≠ "")

/-- Embeds `Tool.check_criteria_2`: first candidate whose upper-casing is a
strict keyword (returned in original case), else the first fragment-pattern
match over the lower-cased candidates (returning the matched span). -/
def checkCriteria2 (kw : RsecKw) (meta : ToolMeta) : Option String :=
  match meta.biocontainers with
  | none => none
  | some bc =>
    if bc.keywords.isTruthy = false then none
    else
      let candidates := keywordCandidates bc.keywords
      match candidates.find? (fun c => kw.stricts.contains (pyUpper c)) with
      | some c => some c
      | none =>
        candidates.findSome?
          (fun c => kw.fragments.findSome? (fun p => ciFind p (pyLower c)))

/-- Trailing-punctuation strip of `check_criteria_3`: the first
whitespace-separated token of the matched phrase with any trailing run of
`.,;()?!` removed (`re.sub(r"[.,;()?!]+$", "", mot)`). -/
def firstTokenStripPunct (phrase : String) : String :=
  let tok := (phrase.data.dropWhile pyIsSpace).takeWhile (fun c => !pyIsSpace c)
  ⟨(tok.reverse.dropWhile
      (fun c => c = '.' || c = ',' || c = ';' || c = '(' || c = ')' ||
        c = '?' || c = '!')).reverse⟩

/-- Reason keys a description match is recorded under. -/
inductive DescKey where
  | biotoolsDescription : DescKey
  | biocontainersDescription : DescKey
  | galaxyDescription : DescKey
deriving DecidableEq, Repr

/-- Search of one description source in `Tool.check_criteria_3` of
`filter_rsec.py`: the strict patterns and the fragment patterns are both
searched in the LOWER-CASED content (`content_lower`). -/
def rsecDescSearch (kw : RsecKw) (content : String) : Option String :=
  let contentLower := pyLower content
  if contentLower = "" then none
  else
    match kw.stricts.find? (fun s => strictWordMatch s contentLower) with
    | some s => some s
    | none =>
      match kw.fragments.findSome? (fun p => ciFind p contentLower) with
      | some phrase => some (firstTokenStripPunct phrase)
      | none => none

/-- Embeds `Tool.check_criteria_3` of `filter_rsec.py`: sources in priority
order biotools, biocontainers, galaxy; empty (lower-cased) content skipped. -/
def checkCriteria3 (kw : RsecKw) (meta : ToolMeta) : Option (DescKey × String) :=
  match rsecDescSearch kw meta.descBiotools with
  | some v => some (.biotoolsDescription, v)
  | none =>
    match rsecDescSearch kw meta.descBiocontainers with
    | some v => some (.biocontainersDescription, v)
    | none =>
      match rsecDescSearch kw meta.descGalaxy with
      | some v => some (.galaxyDescription, v)
      | none => none

/-- Embeds `Tool._search_keywords_in_content` of `filter_rsec_2.py`: the
strict patterns are searched in the RAW content, the fragment patterns in
the lower-cased content (no punctuation post-processing there). -/
def searchKeywordsInContent (kw : RsecKw) (content : String) : Option String :=
  if content = "" then none
  else
    match kw.stricts.find? (fun s => strictWordMatch s content) with
    | some s => some s
    | none => kw.fragments.findSome? (fun p => ciFind p (pyLower content))

/-! Check cascade state, from `Tool.run_checks` and `ToolSet.run_filtering`
of `bin/filter_rsec.py`. -/

/-- The match-reason entries of `Tool.validation_data` (a key absent from
the dict is `none`). -/
structure ValidationData where
  edamTopics : Option String := none
  edamOperation : Option String := none
  biocontainersKeywords : Option String := none
  biotoolsDescription : Option String := none
  biocontainersDescription : Option String := none
  galaxyDescription : Option String := none
deriving DecidableEq, Repr

/-- Store a description-check result under its `validation_data` key. -/
def ValidationData.setDesc (vd : ValidationData) : DescKey → String → ValidationData
  | .biotoolsDescription, v => { vd with biotoolsDescription := some v }
  | .biocontainersDescription, v => { vd with biocontainersDescription := some v }
  | .galaxyDescription, v => { vd with galaxyDescription := some v }

/-- Number of match-reason keys present in `validation_data`. -/
def ValidationData.numReasons (vd : ValidationData) : Nat :=
  (if vd.edamTopics.isSome then 1 else 0) +
  (if vd.edamOperation.isSome then 1 else 0) +
  (if vd.biocontainersKeywords.isSome then 1 else 0) +
  (if vd.biotoolsDescription.isSome then 1 else 0) +
  (if vd.biocontainersDescription.isSome then 1 else 0) +
  (if vd.galaxyDescription.isSome then 1 else 0)

/-- Mutable state of a `Tool` object during `run_checks`. -/
structure ToolState where
  keep : Bool
  vd : ValidationData
deriving DecidableEq, Repr

/-- `check_criteria_1` as a state update: on success the matching term is
written under `EDAM_topics` or `EDAM_operation`. -/
def checkCriteria1S (kw : RsecKw) (meta : ToolMeta) (vd : ValidationData) :
    Bool × ValidationData :=
  match checkCriteria1 kw meta with
  | some (.topicHit t) => (true, { vd with edamTopics := some t })
  | some (.operationHit t) => (true, { vd with edamOperation := some t })
  | none => (false, vd)

/-- `check_criteria_2` as a state update: on success the value is written
under `biocontainers_keywords`. -/
def checkCriteria2S (kw : RsecKw) (meta : ToolMeta) (vd : ValidationData) :
    Bool × ValidationData :=
  match checkCriteria2 kw meta with
  | some v => (true, { vd with biocontainersKeywords := some v })
  | none => (false, vd)

/-- `check_criteria_3` as a state update: on success the value is written
under the key of the description source that matched. -/
def checkCriteria3S (kw : RsecKw) (meta : ToolMeta) (vd : ValidationData) :
    Bool × ValidationData :=
  match checkCriteria3 kw meta with
  | some (k, v) => (true, vd.setDesc k v)
  | none => (false, vd)

/-- Embeds `Tool.run_checks`: the three checks run in order, stopping at the
first success; `keep` is set accordingly. -/
def runChecks (kw : RsecKw) (meta : ToolMeta) (st : ToolState) : ToolState :=
  let r1 := checkCriteria1S kw meta st.vd
  if r1.1 then { keep := true, vd := r1.2 }
  else
    let r2 := checkCriteria2S kw meta r1.2
    if r2.1 then { keep := true, vd := r2.2 }
    else
      let r3 := checkCriteria3S kw meta r2.2
      if r3.1 then { keep := true, vd := r3.2 }
      else { keep := false, vd := r3.2 }

/-- The counters of `ToolSet.report_counts`. -/
structure Counts where
  totalFolders : Nat := 0
  validatedFilter1 : Nat := 0
  validatedFilter2 : Nat := 0
  validatedFilter3 : Nat := 0
  didNotPassAny : Nat := 0
deriving DecidableEq, Repr

/-- Processing of one folder inside `ToolSet.run_filtering`: a fresh `Tool`
(initial `keep = False`, no reason keys) runs the checks, then exactly the
bucket tests of the source update the counters. -/
def processTool (kw : RsecKw) (c : Counts) (meta : ToolMeta) : Counts :=
  let st := runChecks kw meta { keep := false, vd := {} }
  let c := { c with totalFolders := c.totalFolders + 1 }
  if st.keep then
    if st.vd.edamOperation.isSome || st.vd.edamTopics.isSome then
      { c with validatedFilter1 := c.validatedFilter1 + 1 }
    else if st.vd.biocontainersKeywords.isSome then
      { c with validatedFilter2 := c.validatedFilter2 + 1 }
    else if st.vd.biotoolsDescription.isSome ||
        st.vd.biocontainersDescription.isSome ||
        st.vd.galaxyDescription.isSome then
      { c with validatedFilter3 := c.validatedFilter3 + 1 }
    else c
  else { c with didNotPassAny := c.didNotPassAny + 1 }

/-- Embeds the counter bookkeeping of `ToolSet.run_filtering` over a batch of
folders. -/
def runFiltering (kw : RsecKw) (metas : List ToolMeta) : Counts :=
  metas.foldl (processTool kw) {}

/-- Kept-total of `ToolSet._finalize_operation`:
`validated_filter_1 + validated_filter_2 + validated_filter_3`. -/
def Counts.totalKept (c : Counts) : Nat :=
  c.validatedFilter1 + c.validatedFilter2 + c.validatedFilter3

/-! Workflow model, from `bin/extract_workflowhub.py` and `bin/utils.py`.
Only the fields the filtering reads or writes are embedded. -/

/-- Parsed keywords YAML as the workflow/bioconda side reads it: the `edam`
section plus the `keywords` and `acronyms` lists. -/
structure TagsCfg where
  edamTopics : List String := []
  edamOperations : List String := []
  keywords : List String := []
  acronyms : List String := []
deriving DecidableEq, Repr

/-- One workflow record (the fields of `Workflow` the filtering touches). -/
structure Wf where
  link : String
  name : String
  tags : List String
  edamTopic : List String
  edamOperation : List String
  description : String
  keep : Bool
  filteredOn : String
deriving DecidableEq, Repr

/-- Row of the workflow status TSV (`To keep` and `Filtered on` columns). -/
structure WfStatusEntry where
  toKeep : Bool
  filteredOn : String
deriving DecidableEq, Repr

/-- Embeds `utils.has_keyword`: keywords first (case-insensitive), then
acronyms (case-sensitive), each with `format_regex` boundaries; returns
`"{tag} in {target_name}"` on the first hit and `""` otherwise. -/
def hasKeyword (cfg : TagsCfg) (target targetName : String) : String :=
  match cfg.keywords.find? (fun t => boundMatch true t target) with
  | some t => t ++ " in " ++ targetName
  | none =>
    match cfg.acronyms.find? (fun a => boundMatch false a target) with
    | some a => a ++ " in " ++ targetName
    | none => ""

/-- Embeds the boolean of `Workflow.test_edam_terms`: a non-empty
intersection of topics or operations with the configured EDAM terms. -/
def testEdamTermsB (cfg : TagsCfg) (w : Wf) : Bool :=
  w.edamTopic.any (fun t => cfg.edamTopics.contains t) ||
  w.edamOperation.any (fun o => cfg.edamOperations.contains o)

/-- Embeds `Workflow.test_tags`: keywords and acronyms together, each as a
case-insensitive `format_regex` pattern, first tag matching any workflow tag
wins, reason `"{tag} in tags"`. -/
def testTags (cfg : TagsCfg) (w : Wf) : Option String :=
  ((cfg.keywords ++ cfg.acronyms).find?
    (fun tag => w.tags.any (fun wtag => boundMatch true tag wtag))).map
    (fun tag => tag ++ " in tags")

/-- Embeds the automatic test chain of `Workflows.filter_workflows_by_tags`
(the `elif` cascade `test_edam_terms` / `test_tags` / `test_name` /
`test_description`): returns whether a test succeeded together with the
record, whose `filtered_on` the succeeding test has set. -/
def wfAutoEval (cfg : TagsCfg) (w : Wf) : Bool × Wf :=
  if testEdamTermsB cfg w then (true, { w with filteredOn := "edam" })
  else
    match testTags cfg w with
    | some r => (true, { w with filteredOn := r })
    | none =>
      let rName := hasKeyword cfg w.name "name"
      if rName ≠ "" then (true, { w with filteredOn := rName })
      else
        let rDesc := hasKeyword cfg w.description "description"
        if rDesc ≠ "" then (true, { w with filteredOn := rDesc })
        else (false, w)

/-- Embeds the per-record body of `Workflows.filter_workflows_by_tags`:
status merge, then the keep shortcut (whose `wf_status[w.link]` lookup can
raise `KeyError`, embedded as the outer `none`), then the automatic chain;
the inner value is `some` kept record or `none` for a dropped one. -/
def processWf (cfg : TagsCfg) (status : List (String × WfStatusEntry))
    (w : Wf) : Option (Option Wf) :=
  let w1 :=
    match status.lookup w.link with
    | some e => { w with keep := e.toKeep }
    | none => w
  if w1.keep then
    match status.lookup w1.link with
    | some e => some (some { w1 with filteredOn := e.filteredOn })
    | none => none
  else
    let r := wfAutoEval cfg w1
    some (if r.1 then some r.2 else none)

/-! Bioconda recipe model, from `bin/bioconda_manager.py`. -/

/-- One recipe (the metadata fields `filter_by_keywords` touches). -/
structure RecipeMeta where
  keep : Bool
  description : String
  summary : String
deriving DecidableEq, Repr

/-- Embeds `BiocondaRecipe.test_about`: description and summary are joined
with a space and lower-cased before `utils.has_keyword` runs on them. -/
def testAbout (cfg : TagsCfg) (r : RecipeMeta) : Bool :=
  hasKeyword cfg (pyLower (r.description ++ " " ++ r.summary)) "description" ≠ ""

/-- Embeds the per-recipe body of `BiocondaRecipes.filter_by_keywords`:
status merge by package name, then keep iff the stored status is true or
`test_about` succeeds (Python `or` short-circuits). -/
def processRecipe (cfg : TagsCfg) (status : List (String × Bool))
    (name : String) (r : RecipeMeta) : Bool × RecipeMeta :=
  let r1 :=
    match status.lookup name with
    | some b => { r with keep := b }
    | none => r
  (r1.keep || testAbout cfg r1, r1)

/-! Status-table loading, from the `__main__` blocks of
`bin/extract_workflowhub.py` and `main` of `bin/bioconda_manager.py`.  The
pandas read is abstracted as a `ReadOutcome`; the load result is
`Option (table × warned)`, `none` embedding an uncaught exception (the run
aborts) and the `Bool` recording whether a warning message was printed. -/

/-- Outcome of `pd.read_csv(...).to_dict("index")` on the status file:
the file is missing (`FileNotFoundError`), malformed for the requested index
column (`ValueError`), or parses to a table. -/
inductive ReadOutcome (α : Type) where
  | fileNotFound : ReadOutcome α
  | valueError : ReadOutcome α
  | ok (t : α) : ReadOutcome α
deriving DecidableEq, Repr

/-- Embeds the status loading of the workflowhub `filter` command: no
`--status` flag or `FileNotFoundError` give an empty mapping silently;
any other error (e.g. `ValueError` for a malformed file) is uncaught. -/
def whFilterLoadStatus
    (arg : Option (ReadOutcome (List (String × WfStatusEntry)))) :
    Option (List (String × WfStatusEntry) × Bool) :=
  match arg with
  | none => some ([], false)
  | some .fileNotFound => some ([], false)
  | some .valueError => none
  | some (.ok t) => some (t, false)

/-- Embeds the status loading of the workflowhub `curate` command:
`ValueError` is caught with a printed warning and an empty mapping;
`FileNotFoundError` is uncaught. -/
def whCurateLoadStatus (arg : ReadOutcome (List (String × WfStatusEntry))) :
    Option (List (String × WfStatusEntry) × Bool) :=
  match arg with
  | .fileNotFound => none
  | .valueError => some ([], true)
  | .ok t => some (t, false)

/-- Embeds the status loading of the bioconda `filter` command: a bare
`except Exception` turns every error into an empty mapping, silently. -/
def biocondaFilterLoadStatus (arg : ReadOutcome (List (String × Bool))) :
    Option (List (String × Bool) × Bool) :=
  match arg with
  | .fileNotFound => some ([], false)
  | .valueError => some ([], false)
  | .ok t => some (t, false)

/-! Concrete scenario inputs used to evaluate the code at specific points. -/

/-- Rule set compiled from a configuration whose only entry is the strict
acronym `MAG`. -/
def magKw : RsecKw := loadKeywordsFromYaml [] [] [] [some "MAG"]

/-- Tool whose bio.tools description is `"the MAG assembly"` and which has
no other usable metadata. -/
def magToolMeta : ToolMeta :=
  { biotools := some { topics := [], functions := [] }, biocontainers := none,
    descBiotools := "the MAG assembly", descBiocontainers := "",
    descGalaxy := "" }

/-- Rule set compiled from a configuration with EDAM topic `Metagenomics`
and strict acronym `OTU`. -/
def otuKw : RsecKw := loadKeywordsFromYaml [] ["Metagenomics"] [] [some "OTU"]

/-- Batch of three tools: one with EDAM topic `Metagenomics`, one whose
bio.tools description contains the strict acronym `OTU`, one with nothing. -/
def otuBatch : List ToolMeta :=
  [{ biotools := some { topics := [some "Metagenomics"], functions := [] },
     biocontainers := none, descBiotools := "", descBiocontainers := "",
     descGalaxy := "" },
   { biotools := some { topics := [], functions := [] }, biocontainers := none,
     descBiotools := "Computes the OTU table from sequencing reads.",
     descBiocontainers := "", descGalaxy := "" },
   { biotools := none, biocontainers := none, descBiotools := "",
     descBiocontainers := "", descGalaxy := "" }]

/-! Supporting lemmas. -/

/-- One-step unfolding of the `format_regex` search loop. -/
theorem boundSearchAux_eq (ci : Bool) (pat : List Char) (prev : Option Char)
    (text : List Char) :
    boundSearchAux ci pat prev text =
      ((prevOk prev && matchesAt ci pat text && nextOk (text.drop pat.length)) ||
        (match text with
         | [] => false
         | c :: cs => boundSearchAux ci pat (some c) cs)) := by
  cases text <;> simp [boundSearchAux]

/-- Valid code points round-trip through `Char.ofNat`. -/
theorem toNat_charOfNat (n : Nat) (h : n.isValidChar) :
    (Char.ofNat n).toNat = n := by
  simp [Char.ofNat, h, Char.ofNatAux, Char.toNat]
  rfl

/-- Lower-casing an upper-case ASCII letter adds 32 to its code point. -/
theorem toNat_lowerChar_of_upper (c : Char) (h : isUpperAlpha c = true) :
    (lowerChar c).toNat = c.toNat + 32 := by
  have hb : 65 ≤ c.toNat ∧ c.toNat ≤ 90 := by
    simpa [isUpperAlpha] using h
  rw [lowerChar, if_pos h]
  exact toNat_charOfNat _ (Or.inl (by omega))

/-- Lower-cased characters are never upper-case ASCII letters. -/
theorem isUpperAlpha_lowerChar (c : Char) : isUpperAlpha (lowerChar c) = false := by
  by_cases h : isUpperAlpha c = true
  · have hb : 65 ≤ c.toNat ∧ c.toNat ≤ 90 := by
      simpa [isUpperAlpha] using h
    have ht := toNat_lowerChar_of_upper c h
    simp [isUpperAlpha, ht]
    omega
  · rw [lowerChar, if_neg h]
    simpa using h

/-- Every character of a `pyLower` output is non-upper-case. -/
theorem mem_pyLower_not_upper (s : String) (c : Char) (hc : c ∈ (pyLower s).data) :
    isUpperAlpha c = false := by
  simp only [pyLower] at hc
  obtain ⟨x, _, rfl⟩ := List.mem_map.mp hc
  exact isUpperAlpha_lowerChar x

/-- A case-sensitive head match embeds the pattern's characters in the text. -/
theorem mem_of_matchesAt_false (pat text : List Char)
    (h : matchesAt false pat text = true) (c : Char) (hc : c ∈ pat) :
    c ∈ text := by
  induction pat generalizing text with
  | nil => cases hc
  | cons p ps ih =>
    cases text with
    | nil => simp [matchesAt] at h
    | cons t ts =>
      simp only [matchesAt, charEqCI, if_neg (by simp : ¬False), Bool.and_eq_true] at h
      obtain ⟨hpt, hrest⟩ := h
      have hpt : p = t := by simpa using hpt
      rcases List.mem_cons.mp hc with hcp | hcs
      · exact List.mem_cons.mpr (Or.inl (hcp.trans hpt))
      · exact List.mem_cons.mpr (Or.inr (ih ts hrest hcs))

/-- A case-sensitive `format_regex` search for a pattern containing an
upper-case ASCII letter fails on a text without upper-case letters. -/
theorem boundSearchAux_no_upper (pat : List Char) (u : Char)
    (hu : u ∈ pat) (huU : isUpperAlpha u = true) :
    ∀ (text : List Char) (prev : Option Char),
      (∀ c ∈ text, isUpperAlpha c = false) →
      boundSearchAux false pat prev text = false := by
  intro text
  induction text with
  | nil =>
    intro prev _
    rw [boundSearchAux]
    have hm : matchesAt false pat [] = false := by
      cases pat with
      | nil => cases hu
      | cons p ps => rfl
    simp [hm]
  | cons c cs ih =>
    intro prev hlow
    rw [boundSearchAux]
    have hm : matchesAt false pat (c :: cs) = false := by
      by_contra hx
      have hx : matchesAt false pat (c :: cs) = true := by
        revert hx
        cases matchesAt false pat (c :: cs) <;> simp
      have := mem_of_matchesAt_false pat (c :: cs) hx u hu
      have := hlow u this
      rw [huU] at this
      cases this
    have hrec := ih (some c) (fun x hx => hlow x (List.mem_cons_of_mem c hx))
    simp [hm, hrec]

/-- Length equality of fully-folded lists. -/
theorem eqFold_length (ci : Bool) (a b : List Char) (h : eqFold ci a b = true) :
    a.length = b.length := by
  induction a generalizing b with
  | nil => cases b with
    | nil => rfl
    | cons x xs => simp [eqFold] at h
  | cons x xs ih =>
    cases b with
    | nil => simp [eqFold] at h
    | cons y ys =>
      simp only [eqFold, Bool.and_eq_true] at h
      simp [ih ys h.2]

/-- A fully-folded prefix also head-matches any extension. -/
theorem matchesAt_append_of_eqFold (ci : Bool) (pat mid rest : List Char)
    (h : eqFold ci pat mid = true) :
    matchesAt ci pat (mid ++ rest) = true := by
  induction pat generalizing mid with
  | nil => simp [matchesAt]
  | cons p ps ih =>
    cases mid with
    | nil => simp [eqFold] at h
    | cons m ms =>
      simp only [eqFold, Bool.and_eq_true] at h
      simp [matchesAt, h.1, ih ms h.2]

/-- Occurrence with non-letter neighbours: a `format_regex` search succeeds
whenever the text decomposes around a span folding to the pattern with no
ASCII letter adjacent on either side. -/
theorem boundSearchAux_decomp (ci : Bool) (pat mid after : List Char)
    (hfold : eqFold ci pat mid = true) (hafter : nextOk after = true) :
    ∀ (before : List Char) (prev : Option Char),
      (match before.getLast? with
       | some c => asciiAlpha c = false
       | none => prevOk prev = true) →
      boundSearchAux ci pat prev (before ++ (mid ++ after)) = true := by
  intro before
  induction before with
  | nil =>
    intro prev hb
    simp only [List.getLast?] at hb
    rw [List.nil_append, boundSearchAux_eq]
    have hdrop : (mid ++ after).drop pat.length = after := by
      rw [eqFold_length ci pat mid hfold]
      exact List.drop_left mid after
    simp [hb, matchesAt_append_of_eqFold ci pat mid after hfold, hdrop, hafter]
  | cons b bs ih =>
    intro prev hb
    have step : boundSearchAux ci pat (some b) (bs ++ (mid ++ after)) = true := by
      apply ih
      cases bs with
      | nil =>
        simp only [List.getLast?_singleton] at hb
        simpa [prevOk] using hb
      | cons b2 bs2 =>
        rw [List.getLast?_cons_cons] at hb
        exact hb
    rw [List.cons_append, boundSearchAux, step]
    simp

/-- Dropping a satisfied prefix twice is the same as dropping it once. -/
theorem dropWhile_dropWhile_self (p : Char → Bool) (l : List Char) :
    (l.dropWhile p).dropWhile p = l.dropWhile p := by
  induction l with
  | nil => rfl
  | cons c cs ih =>
    by_cases h : p c = true
    · simp [List.dropWhile_cons, h, ih]
    · simp only [Bool.not_eq_true] at h
      simp [List.dropWhile_cons, h]

/-- A final element failing the predicate survives `dropWhile`. -/
theorem dropWhile_append_singleton (p : Char → Bool) (c : Char)
    (hc : p c = false) (u : List Char) :
    (u ++ [c]).dropWhile p = u.dropWhile p ++ [c] := by
  induction u with
  | nil => simp [List.dropWhile_cons, hc]
  | cons x xs ih =>
    by_cases h : p x = true
    · simp [List.dropWhile_cons, h, ih]
    · simp only [Bool.not_eq_true] at h
      simp [List.dropWhile_cons, h]

/-- The head of a `dropWhile` result fails the predicate. -/
theorem head_dropWhile_false (p : Char → Bool) (l : List Char) (c : Char)
    (t : List Char) (h : l.dropWhile p = c :: t) : p c = false := by
  induction l with
  | nil => cases h
  | cons x xs ih =>
    by_cases hx : p x = true
    · rw [List.dropWhile_cons, if_pos hx] at h
      exact ih h
    · simp only [Bool.not_eq_true] at hx
      rw [List.dropWhile_cons, hx] at h
      simp only [Bool.false_eq_true, if_false, List.cons.injEq] at h
      rw [← h.1]
      exact hx

/-- Dropping a prefix never lengthens a list. -/
theorem length_dropWhile_le (p : Char → Bool) (l : List Char) :
    (l.dropWhile p).length ≤ l.length := by
  induction l with
  | nil => simp
  | cons c cs ih =>
    rw [List.dropWhile_cons]
    by_cases h : p c = true
    · simp [h]
      omega
    · simp only [Bool.not_eq_true] at h
      simp [h]

/-- Right-stripping preserves being left-stripped. -/
theorem dropWhile_rstrip (p : Char → Bool) (l : List Char)
    (hl : l.dropWhile p = l) :
    ((l.reverse.dropWhile p).reverse).dropWhile p =
      (l.reverse.dropWhile p).reverse := by
  cases l with
  | nil => rfl
  | cons c cs =>
    have hc : p c = false := by
      by_contra hx
      have hx : p c = true := by
        revert hx
        cases p c <;> simp
      rw [List.dropWhile_cons, if_pos hx] at hl
      have hlen := congrArg List.length hl
      have hle := length_dropWhile_le p cs
      simp at hlen
      omega
    rw [List.reverse_cons, dropWhile_append_singleton p c hc cs.reverse,
      List.reverse_append]
    simp [List.dropWhile_cons, hc]

/-- Python stripping is idempotent. -/
theorem pyStrip_pyStrip (s : String) : pyStrip (pyStrip s) = pyStrip s := by
  rw [pyStrip, pyStrip]
  have ha : (s.data.dropWhile pyIsSpace).dropWhile pyIsSpace =
      s.data.dropWhile pyIsSpace := dropWhile_dropWhile_self pyIsSpace s.data
  have hb := dropWhile_rstrip pyIsSpace (s.data.dropWhile pyIsSpace) ha
  simp only [hb]
  rw [List.reverse_reverse, dropWhile_dropWhile_self]

/-- Reason strings built by `utils.has_keyword` are never empty. -/
theorem tag_reason_ne_empty (t n : String) : t ++ " in " ++ n ≠ "" := by
  intro h
  have hlen := congrArg String.length h
  rw [String.length_append, String.length_append] at hlen
  have h4 : (" in " : String).length = 4 := rfl
  rw [h4] at hlen
  have h0 : ("" : String).length = 0 := rfl
  rw [h0] at hlen
  omega

/-- Workflow tests ignore the `filtered_on` field: EDAM test. -/
theorem testEdamTermsB_set_filteredOn (cfg : TagsCfg) (w : Wf) (x : String) :
    testEdamTermsB cfg { w with filteredOn := x } = testEdamTermsB cfg w := rfl

/-- Workflow tests ignore the `filtered_on` field: tags test. -/
theorem testTags_set_filteredOn (cfg : TagsCfg) (w : Wf) (x : String) :
    testTags cfg { w with filteredOn := x } = testTags cfg w := rfl

/-! Claim theorems. -/

/-- Claim C1: `Tool.run_checks` evaluates the three checks in the fixed
order EDAM, keyword-list, description, stopping at the first success: when
check 1 succeeds the final state is exactly check 1's update of the fresh
state (so no later check contributes), similarly down the cascade, and the
number of recorded match-reason keys is exactly one when the tool is kept
and zero otherwise; on the workflow side the `elif` cascade of
`filter_workflows_by_tags` likewise records the EDAM reason alone whenever
the EDAM test succeeds, and the tags reason alone when EDAM fails and the
tags test succeeds. -/
theorem claim1_cascade_order_single_reason :
    (∀ (kw : RsecKw) (meta : ToolMeta),
      ((checkCriteria1 kw meta).isSome →
        runChecks kw meta { keep := false, vd := {} } =
          { keep := true, vd := (checkCriteria1S kw meta {}).2 }) ∧
      (checkCriteria1 kw meta = none → (checkCriteria2 kw meta).isSome →
        runChecks kw meta { keep := false, vd := {} } =
          { keep := true, vd := (checkCriteria2S kw meta {}).2 }) ∧
      (checkCriteria1 kw meta = none → checkCriteria2 kw meta = none →
        runChecks kw meta { keep := false, vd := {} } =
          { keep := (checkCriteria3 kw meta).isSome,
            vd := (checkCriteria3S kw meta {}).2 }) ∧
      ((runChecks kw meta { keep := false, vd := {} }).vd.numReasons =
        if (runChecks kw meta { keep := false, vd := {} }).keep then 1 else 0)) ∧
    (∀ (cfg : TagsCfg) (w : Wf),
      testEdamTermsB cfg w = true →
      wfAutoEval cfg w = (true, { w with filteredOn := "edam" })) ∧
    (∀ (cfg : TagsCfg) (w : Wf) (r : String),
      testEdamTermsB cfg w = false → testTags cfg w = some r →
      wfAutoEval cfg w = (true, { w with filteredOn := r })) := by
  refine ⟨?_, ?_, ?_⟩
  · intro kw meta
    refine ⟨?_, ?_, ?_, ?_⟩
    · intro h1
      cases h1x : checkCriteria1 kw meta with
      | none => rw [h1x] at h1; cases h1
      | some r =>
        cases r <;>
          simp [runChecks, checkCriteria1S, h1x]
    · intro h1 h2
      cases h2x : checkCriteria2 kw meta with
      | none => rw [h2x] at h2; cases h2
      | some v =>
        simp [runChecks, checkCriteria1S, checkCriteria2S, h1, h2x]
    · intro h1 h2
      cases h3x : checkCriteria3 kw meta with
      | none =>
        simp [runChecks, checkCriteria1S, checkCriteria2S, checkCriteria3S,
          h1, h2, h3x]
      | some kv =>
        simp [runChecks, checkCriteria1S, checkCriteria2S, checkCriteria3S,
          h1, h2, h3x]
    · cases h1x : checkCriteria1 kw meta with
      | some r =>
        cases r <;>
          simp [runChecks, checkCriteria1S, h1x, ValidationData.numReasons]
      | none =>
        cases h2x : checkCriteria2 kw meta with
        | some v =>
          simp [runChecks, checkCriteria1S, checkCriteria2S, h1x, h2x,
            ValidationData.numReasons]
        | none =>
          cases h3x : checkCriteria3 kw meta with
          | none =>
            simp [runChecks, checkCriteria1S, checkCriteria2S, checkCriteria3S,
              h1x, h2x, h3x, ValidationData.numReasons]
          | some kv =>
            obtain ⟨k, v⟩ := kv
            cases k <;>
              simp [runChecks, checkCriteria1S, checkCriteria2S,
                checkCriteria3S, h1x, h2x, h3x, ValidationData.numReasons,
                ValidationData.setDesc]
  · intro cfg w h
    simp [wfAutoEval, h]
  · intro cfg w r h1 h2
    simp [wfAutoEval, h1, h2]

/-- Claim C1 witness: concrete instances of the cascade equalities. -/
theorem claim1_cascade_order_single_reason_witness :
    runChecks otuKw
      { biotools := some { topics := [some "Metagenomics"], functions := [] },
        biocontainers := none, descBiotools := "", descBiocontainers := "",
        descGalaxy := "" } { keep := false, vd := {} } =
      { keep := true, vd := { edamTopics := some "Metagenomics" } } ∧
    wfAutoEval { edamTopics := ["Metagenomics"] }
      { link := "L", name := "n", tags := [], edamTopic := ["Metagenomics"],
        edamOperation := [], description := "", keep := false,
        filteredOn := "" } =
      (true,
        { link := "L", name := "n", tags := [], edamTopic := ["Metagenomics"],
          edamOperation := [], description := "", keep := false,
          filteredOn := "edam" }) := by
  constructor
  · exact ((claim1_cascade_order_single_reason.1 otuKw
      { biotools := some { topics := [some "Metagenomics"], functions := [] },
        biocontainers := none, descBiotools := "", descBiocontainers := "",
        descGalaxy := "" }).1 (by decide)).trans (by decide)
  · exact (claim1_cascade_order_single_reason.2.1
      { edamTopics := ["Metagenomics"] }
      { link := "L", name := "n", tags := [], edamTopic := ["Metagenomics"],
        edamOperation := [], description := "", keep := false,
        filteredOn := "" } (by decide))

/-- Claim C2 evaluation: the claim says the strict whole-word check runs
case-sensitively against the RAW content, so `"the MAG assembly"` matches
strict term `"MAG"` and `"MAGNIFICENT"` does not.  `filter_rsec_2.py`
(`_search_keywords_in_content`) behaves exactly so, but
`Tool.check_criteria_3` of `filter_rsec.py` searches the case-sensitive
strict patterns in `content.lower()`, where `"the MAG assembly"` does NOT
match — the strict sub-check there can never fire for an acronym containing
a letter, contradicting its own comments and the sister script. -/
theorem claim2_strict_check_eval :
    searchKeywordsInContent magKw "the MAG assembly" = some "MAG" ∧
    searchKeywordsInContent magKw "MAGNIFICENT" = none ∧
    rsecDescSearch magKw "the MAG assembly" = none ∧
    checkCriteria3 magKw magToolMeta = none ∧
    strictWordMatch "MAG" "the MAG assembly" = true ∧
    strictWordMatch "MAG" "MAGNIFICENT" = false ∧
    strictWordMatch "MAG" (pyLower "the MAG assembly") = false := by
  refine ⟨?_, ?_, ?_, ?_, ?_, ?_, ?_⟩ <;> decide

/-- Claim C3: a curation-status entry with `keep = true` wins and skips the
automatic checks — the result is kept with the stored `Filtered on` reason
and does not depend on the keyword configuration — while an absent entry
(on a record with the default `keep = false`) or a `keep = false` entry
lets the automatic evaluation proceed normally; the same contract holds for
`BiocondaRecipes.filter_by_keywords`, where a stored `keep = true`
short-circuits `test_about`. -/
theorem claim3_curation_override :
    (∀ (cfg : TagsCfg) (status : List (String × WfStatusEntry)) (w : Wf)
        (e : WfStatusEntry),
      status.lookup w.link = some e → e.toKeep = true →
      processWf cfg status w =
        some (some { w with keep := true, filteredOn := e.filteredOn })) ∧
    (∀ (cfg : TagsCfg) (status : List (String × WfStatusEntry)) (w : Wf),
      status.lookup w.link = none → w.keep = false →
      processWf cfg status w =
        some (if (wfAutoEval cfg w).1 then some (wfAutoEval cfg w).2
          else none)) ∧
    (∀ (cfg : TagsCfg) (status : List (String × WfStatusEntry)) (w : Wf)
        (e : WfStatusEntry),
      status.lookup w.link = some e → e.toKeep = false →
      processWf cfg status w =
        some (if (wfAutoEval cfg { w with keep := false }).1 then
          some (wfAutoEval cfg { w with keep := false }).2 else none)) ∧
    (∀ (cfg : TagsCfg) (status : List (String × Bool)) (name : String)
        (r : RecipeMeta),
      status.lookup name = some true →
      processRecipe cfg status name r = (true, { r with keep := true })) ∧
    (∀ (cfg : TagsCfg) (status : List (String × Bool)) (name : String)
        (r : RecipeMeta),
      status.lookup name = none → r.keep = false →
      processRecipe cfg status name r = (testAbout cfg r, r)) ∧
    (∀ (cfg : TagsCfg) (status : List (String × Bool)) (name : String)
        (r : RecipeMeta),
      status.lookup name = some false →
      processRecipe cfg status name r =
        (testAbout cfg { r with keep := false }, { r with keep := false })) := by
  refine ⟨?_, ?_, ?_, ?_, ?_, ?_⟩
  · intro cfg status w e hl hk
    simp [processWf, hl, hk]
  · intro cfg status w hl hk
    simp [processWf, hl, hk]
  · intro cfg status w e hl hk
    simp [processWf, hl, hk]
  · intro cfg status name r hl
    simp [processRecipe, hl]
  · intro cfg status name r hl hk
    simp [processRecipe, hl, hk]
  · intro cfg status name r hl
    simp [processRecipe, hl]

/-- Claim C3 witness: a record that would fail every automatic check is kept
with the stored reason when its status entry says `keep = true`, on both the
workflow and the bioconda side. -/
theorem claim3_curation_override_witness :
    processWf {} [("id-1", { toKeep := true, filteredOn := "manual" })]
      { link := "id-1", name := "", tags := [], edamTopic := [],
        edamOperation := [], description := "", keep := false,
        filteredOn := "" } =
      some (some
        { link := "id-1", name := "", tags := [], edamTopic := [],
          edamOperation := [], description := "", keep := true,
          filteredOn := "manual" }) ∧
    processRecipe {} [("pkg", true)] "pkg"
      { keep := false, description := "", summary := "" } =
      (true, { keep := true, description := "", summary := "" }) := by
  constructor
  · exact claim3_curation_override.1 {}
      [("id-1", { toKeep := true, filteredOn := "manual" })]
      { link := "id-1", name := "", tags := [], edamTopic := [],
        edamOperation := [], description := "", keep := false,
        filteredOn := "" }
      { toKeep := true, filteredOn := "manual" } (by decide) rfl
  · exact claim3_curation_override.2.2.2.1 {} [("pkg", true)] "pkg"
      { keep := false, description := "", summary := "" } (by decide)

/-- Claim C4: every `keywords` entry that is non-blank, metacharacter-free
and entirely upper-case is registered both as a fragment pattern and
(stripped, upper-cased, set-deduplicated) as a strict term, and for the
concrete list `["MAGS", "metage.*"]` with no explicit acronyms the strict
set is exactly `["MAGS"]` while both entries are fragment patterns
(`"metage.*"` is fragment-only). -/
theorem claim4_dual_registration :
    (∀ (ops tps : List String) (kws acrs : List (Option String)) (kw : String),
      some kw ∈ kws → pyStrip kw ≠ "" → hasMetachar kw = false →
      pyUpper kw = kw →
      pyUpper (pyStrip kw) ∈ (loadKeywordsFromYaml ops tps kws acrs).stricts ∧
      kw ∈ (loadKeywordsFromYaml ops tps kws acrs).fragments) ∧
    (loadKeywordsFromYaml [] [] [some "MAGS", some "metage.*"] []).stricts =
      ["MAGS"] ∧
    (loadKeywordsFromYaml [] [] [some "MAGS", some "metage.*"] []).fragments =
      ["MAGS", "metage.*"] := by
  refine ⟨?_, by decide, by decide⟩
  intro ops tps kws acrs kw hmem hstrip hmeta hup
  have hkwMem : kw ∈ kws.filterMap id := by
    rw [List.mem_filterMap]
    exact ⟨some kw, hmem, rfl⟩
  constructor
  · simp only [loadKeywordsFromYaml]
    rw [List.mem_dedup, List.mem_map]
    refine ⟨pyStrip kw, ?_, congrArg pyUpper (pyStrip_pyStrip kw)⟩
    rw [List.mem_filter]
    constructor
    · rw [List.mem_append]
      right
      rw [List.mem_filterMap]
      refine ⟨kw, hkwMem, ?_⟩
      rw [if_pos ⟨hstrip, hmeta, hup⟩]
    · rw [pyStrip_pyStrip]
      simp [hstrip]
  · simp only [loadKeywordsFromYaml]
    rw [List.mem_filter]
    exact ⟨hkwMem, by simp [hstrip]⟩

/-- Claim C4 witness: the dual registration at the concrete entry `MAGS`. -/
theorem claim4_dual_registration_witness :
    pyUpper (pyStrip "MAGS") ∈
      (loadKeywordsFromYaml [] [] [some "MAGS", some "metage.*"] []).stricts ∧
    "MAGS" ∈
      (loadKeywordsFromYaml [] [] [some "MAGS", some "metage.*"] []).fragments :=
  claim4_dual_registration.1 [] [] [some "MAGS", some "metage.*"] [] "MAGS"
    (by decide) (by decide) (by decide) (by decide)

/-- Claim C5 evaluation: on the spec's three-record batch (one tool with
EDAM topic `Metagenomics`, one whose bio.tools description contains the
strict acronym `OTU`, one matching nothing) the claim expects 2 kept, 1
discarded with `validated_filter_1 = 1`, `validated_filter_3 = 1`,
`did_not_pass_any = 1`; the code instead keeps only the EDAM record —
`check_criteria_3` searches the case-sensitive pattern `\bOTU\b` in the
lower-cased description, which can never match — so the counters come out
`validated_filter_1 = 1`, `validated_filter_3 = 0`, `did_not_pass_any = 2`
(the counters do still partition the batch: 3 = 1 + 0 + 0 + 2). -/
theorem claim5_counter_eval :
    runFiltering otuKw otuBatch =
      { totalFolders := 3, validatedFilter1 := 1, validatedFilter2 := 0,
        validatedFilter3 := 0, didNotPassAny := 2 } ∧
    (runFiltering otuKw otuBatch).totalKept = 1 ∧
    (runFiltering otuKw otuBatch).totalKept +
        (runFiltering otuKw otuBatch).didNotPassAny =
      (runFiltering otuKw otuBatch).totalFolders := by
  refine ⟨by decide, by decide, by decide⟩

/-- Claim C6 counterexample: the claim says a malformed status file is
non-fatal for every batch operation that consults the status table, but the
workflowhub `filter` command catches only `FileNotFoundError`, so a
malformed file (`ValueError`, e.g. a missing `Link` column) propagates and
aborts the run (`none`). -/
theorem claim6_counterexample :
    whFilterLoadStatus (some .valueError) = none := rfl

/-- Claim C6 (amended): a missing status file is non-fatal and yields an
empty mapping in the workflowhub `filter` command (also with no `--status`
flag) and in the bioconda `filter` command, and a malformed one is
non-fatal in the bioconda `filter` command and in the workflowhub `curate`
command; only the `curate` path prints a warning; a malformed file aborts
the workflowhub `filter` command and a missing file aborts the `curate`
command. -/
theorem claim6_amended_status_loading :
    whFilterLoadStatus none = some ([], false) ∧
    whFilterLoadStatus (some .fileNotFound) = some ([], false) ∧
    whFilterLoadStatus (some .valueError) = none ∧
    (∀ t, whFilterLoadStatus (some (.ok t)) = some (t, false)) ∧
    whCurateLoadStatus .valueError = some ([], true) ∧
    whCurateLoadStatus .fileNotFound = none ∧
    (∀ t, whCurateLoadStatus (.ok t) = some (t, false)) ∧
    biocondaFilterLoadStatus .fileNotFound = some ([], false) ∧
    biocondaFilterLoadStatus .valueError = some ([], false) ∧
    (∀ t, biocondaFilterLoadStatus (.ok t) = some (t, false)) :=
  ⟨rfl, rfl, rfl, fun _ => rfl, rfl, rfl, fun _ => rfl, rfl, rfl, fun _ => rfl⟩

/-- Claim C7: the check cascade is idempotent — running `Tool.run_checks`
a second time on the state it produced yields the identical state (same
`keep`, same `validation_data`), and running the workflow test cascade on
the record it returned yields the identical flag and record (same
`filtered_on`). -/
theorem claim7_idempotence :
    (∀ (kw : RsecKw) (meta : ToolMeta) (st : ToolState),
      runChecks kw meta (runChecks kw meta st) = runChecks kw meta st) ∧
    (∀ (cfg : TagsCfg) (w : Wf),
      wfAutoEval cfg (wfAutoEval cfg w).2 = wfAutoEval cfg w) := by
  constructor
  · intro kw meta st
    cases h1 : checkCriteria1 kw meta with
    | some r =>
      cases r <;> simp [runChecks, checkCriteria1S, h1]
    | none =>
      cases h2 : checkCriteria2 kw meta with
      | some v =>
        simp [runChecks, checkCriteria1S, checkCriteria2S, h1, h2]
      | none =>
        cases h3 : checkCriteria3 kw meta with
        | none =>
          simp [runChecks, checkCriteria1S, checkCriteria2S, checkCriteria3S,
            h1, h2, h3]
        | some kv =>
          obtain ⟨k, v⟩ := kv
          cases k <;>
            simp [runChecks, checkCriteria1S, checkCriteria2S,
              checkCriteria3S, h1, h2, h3, ValidationData.setDesc]
  · intro cfg w
    by_cases he : testEdamTermsB cfg w = true
    · simp [wfAutoEval, he, testEdamTermsB_set_filteredOn,
        testTags_set_filteredOn]
    · simp only [Bool.not_eq_true] at he
      cases ht : testTags cfg w with
      | some r =>
        simp [wfAutoEval, he, ht, testEdamTermsB_set_filteredOn,
          testTags_set_filteredOn]
      | none =>
        by_cases hn : hasKeyword cfg w.name "name" = ""
        · by_cases hd : hasKeyword cfg w.description "description" = ""
          · simp [wfAutoEval, he, ht, hn, hd]
          · simp [wfAutoEval, he, ht, hn, hd, testEdamTermsB_set_filteredOn,
              testTags_set_filteredOn]
        · simp [wfAutoEval, he, ht, hn, testEdamTermsB_set_filteredOn,
            testTags_set_filteredOn]

/-- Claim C8: in `filter_workflows_by_tags`, a workflow imported with
`keep` already true whose link is absent from the status mapping makes
`wf_status[w.link]["Filtered on"]` raise a `KeyError` (the outer `none`):
the error branch is reachable at the public interface. -/
theorem claim8_keyerror_reachable :
    ∀ (cfg : TagsCfg) (status : List (String × WfStatusEntry)) (w : Wf),
      w.keep = true → status.lookup w.link = none →
      processWf cfg status w = none := by
  intro cfg status w hk hl
  simp [processWf, hl, hk]

/-- Claim C8 witness: a concrete imported-as-kept workflow with an empty
status table crashes the filter. -/
theorem claim8_keyerror_reachable_witness :
    processWf {} []
      { link := "https://workflowhub.eu/workflows/1", name := "n", tags := [],
        edamTopic := [], edamOperation := [], description := "", keep := true,
        filteredOn := "" } = none :=
  claim8_keyerror_reachable {} []
    { link := "https://workflowhub.eu/workflows/1", name := "n", tags := [],
      edamTopic := [], edamOperation := [], description := "", keep := true,
      filteredOn := "" } rfl (by decide)

/-- Claim C9: in the bioconda variant, `test_about` lower-cases the joined
description and summary while the acronym patterns of `utils.has_keyword`
are compiled without `IGNORECASE`, so when every configured acronym
contains an upper-case letter the acronym loop can never fire and
`test_about` is true exactly when some case-insensitive `keywords` pattern
matches the lower-cased text. -/
theorem claim9_bioconda_acronym_case :
    ∀ (cfg : TagsCfg) (r : RecipeMeta),
      (∀ a ∈ cfg.acronyms, a.data.any isUpperAlpha = true) →
      (testAbout cfg r = true ↔
        ∃ k ∈ cfg.keywords,
          boundMatch true k (pyLower (r.description ++ " " ++ r.summary)) =
            true) := by
  intro cfg r hacr
  have hAcrNone : cfg.acronyms.find?
      (fun a =>
        boundMatch false a (pyLower (r.description ++ " " ++ r.summary))) =
      none := by
    rw [List.find?_eq_none]
    intro a ha
    have hup := hacr a ha
    obtain ⟨u, hu, huU⟩ := List.any_eq_true.mp hup
    have hall : ∀ c ∈ (pyLower (r.description ++ " " ++ r.summary)).data,
        isUpperAlpha c = false :=
      fun c hc => mem_pyLower_not_upper _ c hc
    have hz := boundSearchAux_no_upper a.data u hu huU
      (pyLower (r.description ++ " " ++ r.summary)).data none hall
    simp [boundMatch, hz]
  cases hk : cfg.keywords.find?
      (fun t =>
        boundMatch true t (pyLower (r.description ++ " " ++ r.summary))) with
  | some t =>
    constructor
    · intro _
      refine ⟨t, List.mem_of_find?_eq_some hk, ?_⟩
      have hp := List.find?_some hk
      simpa using hp
    · intro _
      simp [testAbout, hasKeyword, hk, tag_reason_ne_empty]
  | none =>
    constructor
    · intro habs
      exfalso
      simp [testAbout, hasKeyword, hk, hAcrNone] at habs
    · intro ⟨k, hkm, hkb⟩
      exfalso
      have := List.find?_eq_none.mp hk k hkm
      simp [hkb] at this

/-- Claim C9 witness: with acronyms `["MAG"]` and keywords
`["microbiome"]`, `test_about` on a recipe describing a microbiome tool is
decided by the keyword pattern alone. -/
theorem claim9_bioconda_acronym_case_witness :
    (∀ a ∈ ({ keywords := ["microbiome"], acronyms := ["MAG"] } :
        TagsCfg).acronyms, a.data.any isUpperAlpha = true) ∧
    (testAbout { keywords := ["microbiome"], acronyms := ["MAG"] }
        { keep := false, description := "A Microbiome analysis MAG tool",
          summary := "" } = true ↔
      ∃ k ∈ ({ keywords := ["microbiome"], acronyms := ["MAG"] } :
          TagsCfg).keywords,
        boundMatch true k
          (pyLower ("A Microbiome analysis MAG tool" ++ " " ++ "")) = true) :=
  ⟨by decide,
    claim9_bioconda_acronym_case
      { keywords := ["microbiome"], acronyms := ["MAG"] }
      { keep := false, description := "A Microbiome analysis MAG tool",
        summary := "" } (by decide)⟩

/-- Claim C10: the workflow-side matcher built from `utils.format_regex`
blocks a match only on adjacent ASCII letters — whenever the text
decomposes around a span folding to the pattern with the neighbouring
characters (if any) not ASCII letters (digits, underscores, punctuation or
the string edge), the search succeeds; concretely `MAG` matches inside
`MAG2` and `MAG_pipeline`, unlike the tool-side strict `\b` patterns, for
which digits and underscores are word characters and both fail. -/
theorem claim10_ascii_letter_boundaries :
    (∀ (ci : Bool) (pat mid before after : List Char),
      eqFold ci pat mid = true →
      (∀ c, before.getLast? = some c → asciiAlpha c = false) →
      (∀ c, after.head? = some c → asciiAlpha c = false) →
      boundSearchAux ci pat none (before ++ (mid ++ after)) = true) ∧
    boundMatch false "MAG" "MAG2" = true ∧
    boundMatch false "MAG" "MAG_pipeline" = true ∧
    strictWordMatch "MAG" "MAG2" = false ∧
    strictWordMatch "MAG" "MAG_pipeline" = false := by
  refine ⟨?_, by decide, by decide, by decide, by decide⟩
  intro ci pat mid before after hfold hBefore hAfter
  have hafter : nextOk after = true := by
    cases after with
    | nil => rfl
    | cons c cs => simp [nextOk, hAfter c rfl]
  apply boundSearchAux_decomp ci pat mid after hfold hafter
  cases hgl : before.getLast? with
  | none => rfl
  | some c => exact hBefore c hgl

/-- Claim C10 witness: the decomposition instance for `MAG` inside
`2MAG_`, whose neighbours are a digit and an underscore. -/
theorem claim10_ascii_letter_boundaries_witness :
    boundSearchAux false ['M', 'A', 'G'] none
      (['2'] ++ (['M', 'A', 'G'] ++ ['_'])) = true :=
  claim10_ascii_letter_boundaries.1 false ['M', 'A', 'G'] ['M', 'A', 'G']
    ['2'] ['_'] (by decide)
    (by
      intro c h
      have hc : c = '2' := by simpa using h.symm
      rw [hc]
      decide)
    (by
      intro c h
      have hc : c = '_' := by simpa using h.symm
      rw [hc]
      decide)
